import Mathlib

/-!
Shallow embedding of src/video_watermark.py.

The pure computations of process_one_video (geometry planning, watermark
scaling, alpha scaling, placement) are translated into Lean functions on
exact rationals and integers.  Python float arithmetic is modelled by exact
rational arithmetic; Python int() truncation toward zero is modelled by
pyInt; Python floor division // by Int.ediv (identical for the positive
divisors used here).  The external ffprobe/ffmpeg/PIL collaborators are
modelled only where a claim needs them, as documented on each definition.
-/

/-- Python int() applied to a rational: truncation toward zero. -/
def pyInt (q : ℚ) : ℤ := if q < 0 then -⌊-q⌋ else ⌊q⌋

theorem pyInt_of_nonneg (q : ℚ) (h : 0 ≤ q) : pyInt q = ⌊q⌋ := by
  unfold pyInt
  rw [if_neg (not_lt.2 h)]

theorem pyInt_nonneg (q : ℚ) (h : 0 ≤ q) : 0 ≤ pyInt q := by
  rw [pyInt_of_nonneg q h]
  exact Int.floor_nonneg.2 h

/-- Line 68: target_h = int(math.ceil(vw * 16 / 9)).  The float ceil is
modelled by the exact rational ceiling. -/
def targetHeight (vw : ℤ) : ℤ := ⌈((vw : ℚ) * 16) / 9⌉

theorem targetHeight_ge (vw : ℤ) : 16 * vw ≤ 9 * targetHeight vw := by
  have h : ((vw : ℚ) * 16) / 9 ≤ ((targetHeight vw : ℤ) : ℚ) := Int.le_ceil _
  rw [div_le_iff (by norm_num : (0 : ℚ) < 9)] at h
  have h2 : ((16 * vw : ℤ) : ℚ) ≤ ((9 * targetHeight vw : ℤ) : ℚ) := by
    push_cast
    linarith
  exact_mod_cast h2

theorem targetHeight_lt (vw : ℤ) : 9 * targetHeight vw < 16 * vw + 9 := by
  have h : ((targetHeight vw : ℤ) : ℚ) < ((vw : ℚ) * 16) / 9 + 1 :=
    Int.ceil_lt_add_one _
  rw [← sub_lt_iff_lt_add, sub_lt_iff_lt_add, ← sub_lt_iff_lt_add] at h
  have h9 : (((targetHeight vw : ℤ) : ℚ) - 1) * 9 < (vw : ℚ) * 16 := by
    rw [← lt_div_iff (by norm_num : (0 : ℚ) < 9)]
    linarith
  have h2 : ((9 * targetHeight vw : ℤ) : ℚ) < ((16 * vw + 9 : ℤ) : ℚ) := by
    push_cast
    linarith
  exact_mod_cast h2

/-- The geometry data computed by lines 67-77 and 119 of the source. -/
structure Geometry where
  targetH : ℤ
  needPad : Bool
  padTop : ℤ
  padBottom : ℤ
  destH : ℤ
deriving DecidableEq, Repr

/-- Translation of lines 67-77 and 119: target height for 9:16, whether
top/bottom bars are needed, the split of the extra height, and the final
canvas height dest_h.  Python extra // 2 is the ℤ division of Mathlib
(rounding toward minus infinity, identical to Python floor division). -/
def planGeometry (vw vh : ℤ) : Geometry :=
  { targetH := targetHeight vw
    needPad := decide (vh < targetHeight vw)
    padTop := if vh < targetHeight vw then (targetHeight vw - vh) / 2 else 0
    padBottom :=
      if vh < targetHeight vw then
        (targetHeight vw - vh) - (targetHeight vw - vh) / 2
      else 0
    destH := if vh < targetHeight vw then targetHeight vw else vh }

/-- The source raises no dimension-validation error: probe results flow
directly into the geometry computation of lines 67-77 (there is no
DimensionError anywhere in the code), so the geometry step always
succeeds. -/
def planGeometryE (vw vh : ℤ) : Except String Geometry :=
  Except.ok (planGeometry vw vh)

theorem targetHeight_1080 : targetHeight 1080 = 1920 := by
  have h1 := targetHeight_ge 1080
  have h2 := targetHeight_lt 1080
  omega

/-- C5: for positive width and height with height at least ceil(width*16/9),
the plan applies no padding and the final canvas height equals the source
height. -/
theorem plan_no_pad_when_tall (vw vh : ℤ) (hw : 0 < vw) (hh : 0 < vh)
    (h : targetHeight vw ≤ vh) :
    (planGeometry vw vh).padTop = 0 ∧ (planGeometry vw vh).padBottom = 0 ∧
    (planGeometry vw vh).destH = vh := by
  have hnp : ¬ (vh < targetHeight vw) := not_lt.2 h
  unfold planGeometry
  simp [hnp]

theorem plan_no_pad_when_tall_witness :
    targetHeight 1080 ≤ 1920 ∧
    ((planGeometry 1080 1920).padTop = 0 ∧ (planGeometry 1080 1920).padBottom = 0 ∧
     (planGeometry 1080 1920).destH = 1920) :=
  ⟨by simp [targetHeight_1080],
   plan_no_pad_when_tall 1080 1920 (by decide) (by decide) (by simp [targetHeight_1080])⟩

/-- C6: for positive width and height with height below ceil(width*16/9),
the padding split is exact and balanced within one pixel. -/
theorem plan_pad_split (vw vh : ℤ) (hw : 0 < vw) (hh : 0 < vh)
    (h : vh < targetHeight vw) :
    (planGeometry vw vh).padTop + (planGeometry vw vh).padBottom
      = (planGeometry vw vh).targetH - vh ∧
    ((planGeometry vw vh).padTop = (planGeometry vw vh).padBottom ∨
     (planGeometry vw vh).padTop = (planGeometry vw vh).padBottom - 1) := by
  unfold planGeometry
  simp only [if_pos h]
  omega

theorem plan_pad_split_witness :
    (1350 : ℤ) < targetHeight 1080 ∧
    ((planGeometry 1080 1350).padTop + (planGeometry 1080 1350).padBottom
       = (planGeometry 1080 1350).targetH - 1350 ∧
     ((planGeometry 1080 1350).padTop = (planGeometry 1080 1350).padBottom ∨
      (planGeometry 1080 1350).padTop = (planGeometry 1080 1350).padBottom - 1)) :=
  ⟨by simp [targetHeight_1080],
   plan_pad_split 1080 1350 (by decide) (by decide) (by simp [targetHeight_1080])⟩

/-- C1 counterexample: at the nonpositive probed dimensions (0, 0) the
geometry step succeeds and raises nothing, contradicting the claim that
DimensionError is raised whenever width or height is nonpositive. -/
theorem no_dimension_error_at_zero :
    (planGeometryE 0 0).isOk = true ∧ (0 : ℤ) ≤ 0 :=
  ⟨rfl, le_refl 0⟩

/-- C1 (amended): the code performs no dimension validation at all; the
geometry planning step succeeds for every probed (width, height) pair,
positive or not, and no DimensionError is ever raised. -/
theorem plan_never_raises (vw vh : ℤ) : (planGeometryE vw vh).isOk = true := rfl

/-- The random horizontal corner drawn at line 113. -/
inductive Corner where
  | left
  | right
deriving DecidableEq, Repr

structure Position where
  x : ℤ
  y : ℤ
deriving DecidableEq, Repr

/-- Lines 114-117: pos_x = int(vw * MARGIN_X) for the left corner,
pos_x = int(vw - wm_w - vw * MARGIN_X) for the right corner.  Only
Python int() truncation is applied; there is no clamping of x. -/
def posX (c : Corner) (vw wmW : ℤ) (mX : ℚ) : ℤ :=
  match c with
  | Corner.left => pyInt ((vw : ℚ) * mX)
  | Corner.right => pyInt ((vw : ℚ) - (wmW : ℚ) - (vw : ℚ) * mX)

/-- Line 120: pos_y = int(dest_h - wm_h - dest_h * MARGIN_Y), before the
clamp. -/
def posYUnclamped (destH wmH : ℤ) (mY : ℚ) : ℤ :=
  pyInt ((destH : ℚ) - (wmH : ℚ) - (destH : ℚ) * mY)

/-- Lines 120-122: the vertical position, clamped to 0 when negative. -/
def posY (destH wmH : ℤ) (mY : ℚ) : ℤ :=
  if posYUnclamped destH wmH mY < 0 then 0 else posYUnclamped destH wmH mY

/-- Lines 113-122: the placement step of process_one_video. -/
def resolve (c : Corner) (vw wmW wmH destH : ℤ) (mX mY : ℚ) : Position :=
  { x := posX c vw wmW mX, y := posY destH wmH mY }

/-- C3 counterexample: with canvas width 100, watermark pixel width 200 and
marginX = 1/20, the right-corner placement returns x = -105 < 0 (the code
clamps only y, never x), contradicting the claim that x is always
nonnegative. -/
theorem resolve_right_x_negative :
    (resolve Corner.right 100 200 50 1600 (1/20) (1/2)).x = -105 ∧
    (resolve Corner.right 100 200 50 1600 (1/20) (1/2)).x < 0 := by
  have hx : (resolve Corner.right 100 200 50 1600 (1/20) (1/2)).x
      = pyInt ((100 : ℚ) - 200 - 100 * (1/20)) := rfl
  rw [hx]
  norm_num [pyInt]

/-- C3 (amended): y is always nonnegative (it is clamped); for corner=left
x equals the truncation of canvasWidth*marginX (truncation, not rounding)
and is nonnegative; for corner=right x equals the truncation of
canvasWidth - pixelWidth - canvasWidth*marginX, which can be negative when
the watermark is wider than the margin-adjusted band. -/
theorem resolve_position_forms (c : Corner) (vw wmW wmH destH : ℤ) (mX mY : ℚ)
    (hvw : 0 ≤ vw) (hmX : 0 ≤ mX) :
    0 ≤ (resolve c vw wmW wmH destH mX mY).y ∧
    (c = Corner.left →
      (resolve c vw wmW wmH destH mX mY).x = pyInt ((vw : ℚ) * mX) ∧
      0 ≤ (resolve c vw wmW wmH destH mX mY).x) ∧
    (c = Corner.right →
      (resolve c vw wmW wmH destH mX mY).x
        = pyInt ((vw : ℚ) - (wmW : ℚ) - (vw : ℚ) * mX)) := by
  refine ⟨?_, ?_, ?_⟩
  · show 0 ≤ posY destH wmH mY
    unfold posY
    split
    · exact le_refl 0
    · omega
  · intro hc
    subst hc
    refine ⟨rfl, ?_⟩
    show 0 ≤ pyInt ((vw : ℚ) * mX)
    exact pyInt_nonneg _ (mul_nonneg (by exact_mod_cast hvw) hmX)
  · intro hc
    subst hc
    rfl

theorem resolve_position_forms_witness :
    0 ≤ (100 : ℤ) ∧ 0 ≤ (1/20 : ℚ) ∧
    (0 ≤ (resolve Corner.left 100 30 40 1920 (1/20) (1/2)).y ∧
     (Corner.left = Corner.left →
       (resolve Corner.left 100 30 40 1920 (1/20) (1/2)).x
         = pyInt ((100 : ℚ) * (1/20)) ∧
       0 ≤ (resolve Corner.left 100 30 40 1920 (1/20) (1/2)).x) ∧
     (Corner.left = Corner.right →
       (resolve Corner.left 100 30 40 1920 (1/20) (1/2)).x
         = pyInt ((100 : ℚ) - (30 : ℚ) - (100 : ℚ) * (1/20)))) :=
  ⟨by decide, by norm_num,
   resolve_position_forms Corner.left 100 30 40 1920 (1/20) (1/2)
     (by decide) (by norm_num)⟩

/-- The pre-rotation watermark sizes computed by lines 86-94: the jittered
target width with its floor of 8, and the aspect-preserving resized height
with its floor of 1.  v is the uniform draw in [-SCALE_VARIATION,
SCALE_VARIATION]; the code multiplies by variation = 1 + v. -/
structure WmTransform where
  targetW : ℤ
  resizedW : ℤ
  resizedH : ℤ
deriving DecidableEq, Repr

def transformStep (vw w0 h0 : ℤ) (f v : ℚ) : WmTransform :=
  { targetW := max 8 (pyInt ((vw : ℚ) * f * (1 + v)))
    resizedW := max 8 (pyInt ((vw : ℚ) * f * (1 + v)))
    resizedH := max 1 (pyInt ((h0 : ℚ) *
      ((max 8 (pyInt ((vw : ℚ) * f * (1 + v))) : ℤ) / (w0 : ℚ)))) }

/-- C4 counterexample: at video width 1083, widthFraction 1/4 and zero
jitter, the code computes int(1083 * 0.25) = 270 (truncation), while the
claimed formula max(8, round(1083 * 0.25)) gives 271. -/
theorem target_width_truncates_not_rounds :
    (transformStep 1083 400 100 (1/4) 0).targetW = 270 ∧
    max 8 (round ((1083 : ℚ) * (1/4) * (1 + 0))) = 271 := by
  constructor
  · show max 8 (pyInt ((1083 : ℚ) * (1/4) * (1 + 0))) = 270
    norm_num [pyInt]
  · norm_num [round_eq]

/-- C4 (amended): for every video width and every jitter draw in
[-scaleJitter, scaleJitter], the target width is
max(8, trunc(videoWidth * widthFraction * (1 + variation))) - Python int()
truncation, not rounding. -/
theorem target_width_formula (vw w0 h0 : ℤ) (f v jit : ℚ)
    (h1 : -jit ≤ v) (h2 : v ≤ jit) :
    (transformStep vw w0 h0 f v).targetW
      = max 8 (pyInt ((vw : ℚ) * f * (1 + v))) := rfl

theorem target_width_formula_witness :
    -(3/20 : ℚ) ≤ 0 ∧ (0 : ℚ) ≤ 3/20 ∧
    (transformStep 1080 400 100 (1/4) 0).targetW
      = max 8 (pyInt ((1080 : ℚ) * (1/4) * (1 + 0))) :=
  ⟨by norm_num, by norm_num,
   target_width_formula 1080 400 100 (1/4) 0 (3/20) (by norm_num) (by norm_num)⟩

/-- An RGBA pixel of the watermark image; channels are 0..255 byte values
in PIL, modelled as naturals. -/
structure Pixel where
  r : ℕ
  g : ℕ
  b : ℕ
  a : ℕ
deriving DecidableEq, Repr

/-- Lines 96-100: if WM_OPACITY < 1.0 the alpha channel is replaced by
alpha.point(lambda p: int(p * WM_OPACITY)) and written back with putalpha;
otherwise nothing happens.  The PIL split/point/putalpha calls are the
per-pixel map shown here (an external image kernel; the spec describes it
as multiplying every alpha value, rounding down, leaving RGB untouched). -/
def applyOpacity (o : ℚ) (img : List Pixel) : List Pixel :=
  if o < 1 then
    img.map (fun px => { px with a := (pyInt ((px.a : ℚ) * o)).toNat })
  else img

theorem scaled_alpha_le (a : ℕ) (o : ℚ) (h0 : 0 ≤ o) (h1 : o ≤ 1) :
    (pyInt ((a : ℚ) * o)).toNat ≤ a := by
  have hq : 0 ≤ (a : ℚ) * o := mul_nonneg (Nat.cast_nonneg a) h0
  rw [pyInt_of_nonneg _ hq, Int.toNat_le]
  have hle : (a : ℚ) * o ≤ ((a : ℤ) : ℚ) := by
    push_cast
    nlinarith
  calc ⌊(a : ℚ) * o⌋ ≤ ⌊((a : ℤ) : ℚ)⌋ := Int.floor_le_floor hle
    _ = (a : ℤ) := Int.floor_intCast _

/-- C7: the alpha-scaling step is the identity at opacity 1 (no channel is
modified), and for opacity strictly between 0 and 1 every output pixel
keeps its RGB channels and has alpha at most the original alpha. -/
theorem applyOpacity_id_and_monotone (o : ℚ) (img : List Pixel)
    (h0 : 0 < o) (h1 : o < 1) :
    applyOpacity 1 img = img ∧
    List.Forall₂
      (fun q p => q.r = p.r ∧ q.g = p.g ∧ q.b = p.b ∧ q.a ≤ p.a)
      (applyOpacity o img) img := by
  constructor
  · unfold applyOpacity
    rw [if_neg (lt_irrefl (1 : ℚ))]
  · unfold applyOpacity
    rw [if_pos h1]
    induction img with
    | nil => exact List.Forall₂.nil
    | cons px rest ih =>
      exact List.Forall₂.cons
        ⟨rfl, rfl, rfl, scaled_alpha_le px.a o (le_of_lt h0) (le_of_lt h1)⟩ ih

/-- Modelled from the spec: line 104 delegates rotation to the external
PIL image kernel (pil.rotate with expand=True), whose code is not part of
this repository.  The spec says the output canvas is expanded to exactly
fit the rotated content; the exact-fit axis-aligned bounding box of a w by
h rectangle rotated by deg degrees has width w*|cos| + h*|sin| of the
angle in radians, rounded up to whole pixels. -/
noncomputable def rotatedW (w h : ℤ) (deg : ℝ) : ℤ :=
  ⌈(w : ℝ) * |Real.cos (deg * Real.pi / 180)|
    + (h : ℝ) * |Real.sin (deg * Real.pi / 180)|⌉

/-- Modelled from the spec: height of the exact-fit bounding box of the
rotated watermark, as for rotatedW. -/
noncomputable def rotatedH (w h : ℤ) (deg : ℝ) : ℤ :=
  ⌈(w : ℝ) * |Real.sin (deg * Real.pi / 180)|
    + (h : ℝ) * |Real.cos (deg * Real.pi / 180)|⌉

theorem rotatedW_zero (w h : ℤ) : rotatedW w h 0 = w := by
  unfold rotatedW
  norm_num

theorem rotatedH_zero (w h : ℤ) : rotatedH w h 0 = h := by
  unfold rotatedH
  norm_num

theorem le_rotatedW (w h : ℤ) (deg : ℝ) :
    (w : ℝ) * |Real.cos (deg * Real.pi / 180)|
      + (h : ℝ) * |Real.sin (deg * Real.pi / 180)|
      ≤ (rotatedW w h deg : ℝ) :=
  Int.le_ceil _

theorem le_rotatedH (w h : ℤ) (deg : ℝ) :
    (w : ℝ) * |Real.sin (deg * Real.pi / 180)|
      + (h : ℝ) * |Real.cos (deg * Real.pi / 180)|
      ≤ (rotatedH w h deg : ℝ) :=
  Int.le_ceil _

/-- C8 counterexample: a 1000 by 1 watermark rotated by 8 degrees (the
configured ROTATE_DEG_RANGE) has a bounding-box width strictly below 1000,
so the post-rotation dimensions are not always at least the pre-rotation
ones. -/
theorem rotated_box_can_shrink : rotatedW 1000 1 8 < 1000 := by
  have hpi1 := Real.pi_gt_314
  have hpi2 := Real.pi_lt_315
  have hpi0 := Real.pi_pos
  have ht0 : (0 : ℝ) < 8 * Real.pi / 180 := by positivity
  have htpi : 8 * Real.pi / 180 ≤ Real.pi := by nlinarith
  have htabs : |8 * Real.pi / 180| ≤ Real.pi := by
    rw [abs_of_pos ht0]
    exact htpi
  have hcos := Real.cos_le_one_sub_mul_cos_sq htabs
  have hsin := Real.sin_le_one (8 * Real.pi / 180)
  have hcosnn : 0 ≤ Real.cos (8 * Real.pi / 180) :=
    Real.cos_nonneg_of_mem_Icc
      (Set.mem_Icc.mpr ⟨by nlinarith, by nlinarith⟩)
  have hsinnn : 0 ≤ Real.sin (8 * Real.pi / 180) :=
    Real.sin_nonneg_of_nonneg_of_le_pi (le_of_lt ht0) htpi
  have h2 : 2 / Real.pi ^ 2 * (8 * Real.pi / 180) ^ 2 = 8 / 2025 := by
    field_simp
    ring
  have hle : rotatedW 1000 1 8 ≤ 999 := by
    unfold rotatedW
    rw [Int.ceil_le]
    push_cast
    rw [abs_of_nonneg hcosnn, abs_of_nonneg hsinnn]
    rw [h2] at hcos
    nlinarith
  omega

/-- C8 (amended): for every pre-rotation size and every angle, the
bounding box never shrinks in total (the sum of the two dimensions is at
least the pre-rotation sum) and each post-rotation dimension is at least
the smaller pre-rotation dimension; an individual dimension can drop below
its own pre-rotation value for extreme aspect ratios, as the
counterexample shows. -/
theorem rotated_box_bounds (w h : ℤ) (deg : ℝ) (hw : 0 ≤ w) (hh : 0 ≤ h) :
    w + h ≤ rotatedW w h deg + rotatedH w h deg ∧
    min w h ≤ rotatedW w h deg ∧
    min w h ≤ rotatedH w h deg := by
  have e1 := le_rotatedW w h deg
  have e2 := le_rotatedH w h deg
  set c := |Real.cos (deg * Real.pi / 180)| with hc
  set s := |Real.sin (deg * Real.pi / 180)| with hs
  have hc0 : 0 ≤ c := abs_nonneg _
  have hs0 : 0 ≤ s := abs_nonneg _
  have hcs : c ^ 2 + s ^ 2 = 1 := by
    rw [hc, hs, sq_abs, sq_abs]
    exact Real.cos_sq_add_sin_sq _
  have hcs1 : 1 ≤ c + s := by
    nlinarith [mul_nonneg hc0 hs0, sq_nonneg (c + s)]
  have hwr : (0 : ℝ) ≤ (w : ℝ) := by exact_mod_cast hw
  have hhr : (0 : ℝ) ≤ (h : ℝ) := by exact_mod_cast hh
  refine ⟨?_, ?_, ?_⟩
  · have hr : ((w + h : ℤ) : ℝ) ≤ ((rotatedW w h deg + rotatedH w h deg : ℤ) : ℝ) := by
      push_cast
      nlinarith [mul_le_mul_of_nonneg_left hcs1 hwr,
        mul_le_mul_of_nonneg_left hcs1 hhr]
    exact_mod_cast hr
  · rcases le_total w h with hwh | hwh
    · rw [min_eq_left hwh]
      have hwhr : (w : ℝ) ≤ (h : ℝ) := by exact_mod_cast hwh
      have hr : ((w : ℤ) : ℝ) ≤ ((rotatedW w h deg : ℤ) : ℝ) := by
        nlinarith [mul_le_mul_of_nonneg_left hcs1 hwr,
          mul_le_mul_of_nonneg_right hwhr hs0]
      exact_mod_cast hr
    · rw [min_eq_right hwh]
      have hwhr : (h : ℝ) ≤ (w : ℝ) := by exact_mod_cast hwh
      have hr : ((h : ℤ) : ℝ) ≤ ((rotatedW w h deg : ℤ) : ℝ) := by
        nlinarith [mul_le_mul_of_nonneg_left hcs1 hhr,
          mul_le_mul_of_nonneg_right hwhr hc0]
      exact_mod_cast hr
  · rcases le_total w h with hwh | hwh
    · rw [min_eq_left hwh]
      have hwhr : (w : ℝ) ≤ (h : ℝ) := by exact_mod_cast hwh
      have hr : ((w : ℤ) : ℝ) ≤ ((rotatedH w h deg : ℤ) : ℝ) := by
        nlinarith [mul_le_mul_of_nonneg_left hcs1 hwr,
          mul_le_mul_of_nonneg_right hwhr hc0]
      exact_mod_cast hr
    · rw [min_eq_right hwh]
      have hwhr : (h : ℝ) ≤ (w : ℝ) := by exact_mod_cast hwh
      have hr : ((h : ℤ) : ℝ) ≤ ((rotatedH w h deg : ℤ) : ℝ) := by
        nlinarith [mul_le_mul_of_nonneg_left hcs1 hhr,
          mul_le_mul_of_nonneg_right hwhr hs0]
      exact_mod_cast hr

theorem rotated_box_bounds_witness :
    0 ≤ (5 : ℤ) ∧ 0 ≤ (3 : ℤ) ∧
    ((5 : ℤ) + 3 ≤ rotatedW 5 3 0 + rotatedH 5 3 0 ∧
     min (5 : ℤ) 3 ≤ rotatedW 5 3 0 ∧
     min (5 : ℤ) 3 ≤ rotatedH 5 3 0) :=
  ⟨by decide, by decide, rotated_box_bounds 5 3 0 (by decide) (by decide)⟩

/-- The composition directive emitted by one run of process_one_video:
geometry plan, scaled watermark, post-rotation pixel size and overlay
position. -/
structure Directive where
  geom : Geometry
  wm : WmTransform
  wmW : ℤ
  wmH : ℤ
  pos : Position

/-- The pure geometry pipeline of process_one_video (lines 59-122): plan
the 9:16 canvas, scale the watermark, rotate it (external kernel, modelled
above) and resolve the overlay position.  The random draws (jitter v,
angle deg, corner c) and the configuration constants are parameters. -/
noncomputable def process_one_video (vw vh w0 h0 : ℤ) (f : ℚ) (v : ℚ)
    (deg : ℝ) (c : Corner) (mX mY : ℚ) : Directive :=
  { geom := planGeometry vw vh
    wm := transformStep vw w0 h0 f v
    wmW := rotatedW (transformStep vw w0 h0 f v).resizedW
      (transformStep vw w0 h0 f v).resizedH deg
    wmH := rotatedH (transformStep vw w0 h0 f v).resizedW
      (transformStep vw w0 h0 f v).resizedH deg
    pos := resolve c vw
      (rotatedW (transformStep vw w0 h0 f v).resizedW
        (transformStep vw w0 h0 f v).resizedH deg)
      (rotatedH (transformStep vw w0 h0 f v).resizedW
        (transformStep vw w0 h0 f v).resizedH deg)
      (planGeometry vw vh).destH mX mY }

theorem planGeometry_1080_1920 :
    planGeometry 1080 1920 = ⟨1920, false, 0, 0, 1920⟩ := by
  simp [planGeometry, targetHeight_1080]

theorem transformStep_scenario :
    transformStep 1080 400 100 (1/4) 0 = ⟨270, 270, 67⟩ := by
  have htw : max (8 : ℤ) (pyInt (((1080 : ℤ) : ℚ) * (1/4) * (1 + 0))) = 270 := by
    norm_num [pyInt]
  have hrh : max (1 : ℤ)
      (pyInt (((100 : ℤ) : ℚ) * (((270 : ℤ) : ℚ) / ((400 : ℤ) : ℚ)))) = 67 := by
    norm_num [pyInt]
  unfold transformStep
  rw [htw, hrh]

/-- C2 counterexample: in the claimed scenario (1080x1920 video, 400x100
watermark, widthFraction 1/4, zero jitter) the resized watermark height is
int(100 * 270/400) = int(67.5) = 67 by Python truncation, not the claimed
68; consequently the overlay y is 893, not 892. -/
theorem scenario_resized_height :
    (process_one_video 1080 1920 400 100 (1/4) 0 0 Corner.left
      (1/20) (1/2)).wm.resizedH = 67 ∧
    ¬ ((process_one_video 1080 1920 400 100 (1/4) 0 0 Corner.left
      (1/20) (1/2)).wm.resizedH = 68) := by
  have h : (process_one_video 1080 1920 400 100 (1/4) 0 0 Corner.left
      (1/20) (1/2)).wm.resizedH = 67 := by
    show (transformStep 1080 400 100 (1/4) 0).resizedH = 67
    rw [transformStep_scenario]
  exact ⟨h, by rw [h]; decide⟩

/-- C2 (amended): in the scenario the pipeline yields targetHeight 1920
with no padding, target width 270, resized height 67 (truncation of 67.5),
post-rotation size 270 by 67 at angle 0, overlay x = 54 and y = 893. -/
theorem scenario_end_to_end :
    (process_one_video 1080 1920 400 100 (1/4) 0 0 Corner.left
      (1/20) (1/2)).geom.targetH = 1920 ∧
    (process_one_video 1080 1920 400 100 (1/4) 0 0 Corner.left
      (1/20) (1/2)).geom.padTop = 0 ∧
    (process_one_video 1080 1920 400 100 (1/4) 0 0 Corner.left
      (1/20) (1/2)).geom.padBottom = 0 ∧
    (process_one_video 1080 1920 400 100 (1/4) 0 0 Corner.left
      (1/20) (1/2)).wm.targetW = 270 ∧
    (process_one_video 1080 1920 400 100 (1/4) 0 0 Corner.left
      (1/20) (1/2)).wm.resizedH = 67 ∧
    (process_one_video 1080 1920 400 100 (1/4) 0 0 Corner.left
      (1/20) (1/2)).wmW = 270 ∧
    (process_one_video 1080 1920 400 100 (1/4) 0 0 Corner.left
      (1/20) (1/2)).wmH = 67 ∧
    (process_one_video 1080 1920 400 100 (1/4) 0 0 Corner.left
      (1/20) (1/2)).pos.x = 54 ∧
    (process_one_video 1080 1920 400 100 (1/4) 0 0 Corner.left
      (1/20) (1/2)).pos.y = 893 := by
  have hpos : (process_one_video 1080 1920 400 100 (1/4) 0 0 Corner.left
      (1/20) (1/2)).pos = resolve Corner.left 1080 270 67 1920 (1/20) (1/2) := by
    show resolve Corner.left 1080
      (rotatedW (transformStep 1080 400 100 (1/4) 0).resizedW
        (transformStep 1080 400 100 (1/4) 0).resizedH 0)
      (rotatedH (transformStep 1080 400 100 (1/4) 0).resizedW
        (transformStep 1080 400 100 (1/4) 0).resizedH 0)
      (planGeometry 1080 1920).destH (1/20) (1/2) = _
    rw [transformStep_scenario, planGeometry_1080_1920]
    show resolve Corner.left 1080 (rotatedW 270 67 0) (rotatedH 270 67 0)
      1920 (1/20) (1/2) = _
    rw [rotatedW_zero, rotatedH_zero]
  have hwmW : (process_one_video 1080 1920 400 100 (1/4) 0 0 Corner.left
      (1/20) (1/2)).wmW = 270 := by
    show rotatedW (transformStep 1080 400 100 (1/4) 0).resizedW
      (transformStep 1080 400 100 (1/4) 0).resizedH 0 = 270
    rw [transformStep_scenario]
    exact rotatedW_zero 270 67
  have hwmH : (process_one_video 1080 1920 400 100 (1/4) 0 0 Corner.left
      (1/20) (1/2)).wmH = 67 := by
    show rotatedH (transformStep 1080 400 100 (1/4) 0).resizedW
      (transformStep 1080 400 100 (1/4) 0).resizedH 0 = 67
    rw [transformStep_scenario]
    exact rotatedH_zero 270 67
  have hy : posY 1920 67 (1/2) = 893 := by
    have hraw : posYUnclamped 1920 67 (1/2) = 893 := by
      norm_num [posYUnclamped, pyInt]
    unfold posY
    rw [hraw]
    norm_num
  refine ⟨?_, ?_, ?_, ?_, ?_, hwmW, hwmH, ?_, ?_⟩
  · show (planGeometry 1080 1920).targetH = 1920
    rw [planGeometry_1080_1920]
  · show (planGeometry 1080 1920).padTop = 0
    rw [planGeometry_1080_1920]
  · show (planGeometry 1080 1920).padBottom = 0
    rw [planGeometry_1080_1920]
  · show (transformStep 1080 400 100 (1/4) 0).targetW = 270
    rw [transformStep_scenario]
  · show (transformStep 1080 400 100 (1/4) 0).resizedH = 67
    rw [transformStep_scenario]
  · rw [hpos]
    show posX Corner.left 1080 270 (1/20) = 54
    norm_num [posX, pyInt]
  · rw [hpos]
    show posY 1920 67 (1/2) = 893
    exact hy

/-- Translation of os.path.splitext restricted to basenames (the inputs
come from os.listdir, so they contain no path separator): the extension is
the suffix starting at the last dot, except that a basename consisting of
leading dots only up to that dot has no extension. -/
def pyExt (fn : List Char) : List Char :=
  match (fn.reverse).span (fun ch => ch != '.') with
  | (_, []) => []
  | (revAfter, _ :: revBefore) =>
      if revBefore.any (fun ch => ch != '.') then '.' :: revAfter.reverse else []

/-- The allow-list of line 173. -/
def videoExts : List (List Char) :=
  [".mp4".data, ".mov".data, ".mkv".data, ".avi".data, ".webm".data,
   ".mpeg".data, ".mpg".data, ".flv".data]

/-- Lines 171-173: ext = os.path.splitext(fn)[1].lower(); ext in the
allow-list.  Python str.lower on the extension is modelled by the ASCII
Char.toLower (the allow-list is pure ASCII). -/
def is_video_file (fn : String) : Bool :=
  videoExts.contains ((pyExt fn.data).map Char.toLower)

/-- Outcome of one file as recorded by the batch loop. -/
inductive Outcome where
  | success
  | failure (msg : String)
deriving DecidableEq, Repr

/-- The try/except of lines 185-188: a per-file error is caught and turned
into a recorded failure; a normal return is a success. -/
def outcomeOf (r : Except String Unit) : Outcome :=
  match r with
  | Except.ok _ => Outcome.success
  | Except.error e => Outcome.failure e

/-- The for-loop of lines 181-188 over the queued files: each file gets
its own recorded outcome and iteration always continues with the rest. -/
def batchLoop (proc : String → Except String Unit) : List String → List (String × Outcome)
  | [] => []
  | f :: rest => (f, outcomeOf (proc f)) :: batchLoop proc rest

/-- Line 176: files = [f for f in sorted(os.listdir(...)) if is_video_file(f)].
Python sorted is modelled by insertion sort on the string order (both are
stable, and listdir entries are distinct, so the results agree). -/
def mainQueue (dir : List String) : List String :=
  (List.insertionSort (· ≤ ·) dir).filter (fun f => is_video_file f)

/-- main (lines 175-188): enumerate, filter, sort, then process each file
with per-file error isolation. -/
def runBatch (proc : String → Except String Unit) (dir : List String) :
    List (String × Outcome) :=
  batchLoop proc (mainQueue dir)

theorem batchLoop_map_fst (proc : String → Except String Unit) :
    ∀ l : List String, (batchLoop proc l).map Prod.fst = l
  | [] => rfl
  | f :: rest => by
    simp [batchLoop, batchLoop_map_fst proc rest]

theorem batchLoop_outcome (proc : String → Except String Unit)
    (l : List String) : ∀ p ∈ batchLoop proc l, p.2 = outcomeOf (proc p.1) := by
  induction l with
  | nil =>
    intro p hp
    cases hp
  | cons f rest ih =>
    intro p hp
    rcases List.mem_cons.mp hp with hp | hp
    · rw [hp]
    · exact ih p hp

/-- C9: every queued file is processed, in order, and gets exactly one
recorded outcome; the outcome of a file depends only on that file (one
file failing cannot abort or alter the rest); the queue is processed in
sorted (lexicographic) filename order. -/
theorem batch_isolated_and_ordered (proc : String → Except String Unit)
    (dir : List String) :
    (runBatch proc dir).map Prod.fst = mainQueue dir ∧
    (∀ p ∈ runBatch proc dir, p.2 = outcomeOf (proc p.1)) ∧
    List.Sorted (· ≤ ·) (mainQueue dir) := by
  refine ⟨batchLoop_map_fst proc (mainQueue dir),
    batchLoop_outcome proc (mainQueue dir), ?_⟩
  show List.Sorted (· ≤ ·)
    ((List.insertionSort (· ≤ ·) dir).filter (fun f => is_video_file f))
  exact (List.sorted_insertionSort (· ≤ ·) dir).filter _

/-- C10: the extension filter is case-insensitive: a filename is accepted
exactly when its splitext extension, lowercased, is in the fixed
allow-list; in particular uppercase variants such as .MP4 and .Mov are
queued. -/
theorem is_video_file_spec :
    (∀ fn : String,
      is_video_file fn = true ↔ (pyExt fn.data).map Char.toLower ∈ videoExts) ∧
    is_video_file "clip.MP4" = true ∧
    is_video_file "Clip.Mov" = true ∧
    is_video_file "clip.mp4" = true ∧
    is_video_file "clip.txt" = false ∧
    is_video_file "clipmp4" = false := by
  refine ⟨fun fn => ?_, by decide, by decide, by decide, by decide, by decide⟩
  simp [is_video_file, List.contains]

theorem applyOpacity_witness :
    (0 : ℚ) < 1/10 ∧ (1/10 : ℚ) < 1 ∧
    (applyOpacity 1 [Pixel.mk 255 128 0 200] = [Pixel.mk 255 128 0 200] ∧
     List.Forall₂
       (fun (q p : Pixel) => q.r = p.r ∧ q.g = p.g ∧ q.b = p.b ∧ q.a ≤ p.a)
       (applyOpacity (1/10) [Pixel.mk 255 128 0 200]) [Pixel.mk 255 128 0 200]) :=
  ⟨by norm_num, by norm_num,
   applyOpacity_id_and_monotone (1/10) [Pixel.mk 255 128 0 200]
     (by norm_num) (by norm_num)⟩
